import Mathlib

/-!
Verification of the market-demand derivation and insight-synthesis pipeline of the
airline-booking-analyzer repository, shallowly embedded from
`src/analyzer/data_processor.py`, `src/analyzer/ai_processor.py` and
`src/analyzer/models.py`.

Modelling conventions:
* prices and averages (Python `float` / Django `Decimal`) are rational numbers;
* calendar dates (`datetime.date`) are integers counting days, with day 0 a Monday,
  so that Python `weekday()` is `date % 7`;
* the Django ORM stores are explicit values: the `MarketDemand` table is a
  `List MDRec`, the `Insight` table a list inside `InsightStore`;
* Django querysets arrive as Lean lists in database iteration order; Python `dict`
  grouping (insertion-ordered) is modelled by `keysOf`/`groupOf`;
* wall-clock fields (`scraped_at`, `created_at`) and the window filters applied by
  the callers are outside the embedded logic: each function receives the already
  windowed observation list, exactly as the Python code receives its queryset;
* a store that can fail is modelled by a fault schedule `faults : Nat -> Bool`
  consulted at each store write (index = number of store calls made so far);
  the pure, never-failing store is `noFaults`.
-/

/- Core marks the rational arithmetic operations `@[irreducible]`; concrete
evaluation of the embedded pipeline (needed for witnesses and counterexamples)
requires unfolding them. -/
set_option allowUnsafeReducibility true
attribute [semireducible] Rat.mul Rat.add Rat.sub Rat.div Rat.inv Rat.ofScientific

set_option maxRecDepth 40000

deriving instance DecidableEq for Except

namespace Analyzer

/-- One flight price observation (`analyzer.models.FlightData` restricted to the
fields the embedded logic reads).  `price` is optional so that a malformed
observation with a missing price can be represented; `float(None)` raising in
Python corresponds to the `none` case. -/
structure Flight where
  routeId : ℕ
  originIata : String
  destIata : String
  originCity : String
  destCity : String
  depDate : ℤ
  price : Option ℚ
deriving DecidableEq, Repr

/-- One row of the `MarketDemand` table (`analyzer.models.MarketDemand`). -/
structure MDRec where
  route : ℕ
  date : ℤ
  search_volume : ℕ
  average_price : ℚ
  price_trend : String
  demand_level : String
deriving DecidableEq, Repr

/-! ### Insertion-ordered grouping (Python `dict`-of-lists idiom)

Both processors build a `dict` keyed by some function of the flight, appending
each flight to its key's bucket.  Keys appear in first-encounter order and each
bucket keeps the encounter order of its members. -/

/-- Add a key to the key list unless already present (Python dict key creation). -/
def keyInsert {κ : Type} [DecidableEq κ] (ks : List κ) (k : κ) : List κ :=
  if k ∈ ks then ks else ks ++ [k]

/-- The keys of the grouping dict, in first-encounter order. -/
def keysOf {α κ : Type} [DecidableEq κ] (key : α → κ) (l : List α) : List κ :=
  l.foldl (fun ks a => keyInsert ks (key a)) []

/-- The bucket of key `k`: all members with that key, in encounter order. -/
def groupOf {α κ : Type} [DecidableEq κ] (key : α → κ) (l : List α) (k : κ) : List α :=
  l.filter (fun a => decide (key a = k))

/-- The whole grouping dict as an association list in key insertion order. -/
def groupsOf {α κ : Type} [DecidableEq κ] (key : α → κ) (l : List α) :
    List (κ × List α) :=
  (keysOf key l).map (fun k => (k, groupOf key l k))

/-! ### DataProcessor (`analyzer/data_processor.py`) -/

/-- `round(x, 2)` on the average price before storing it.  (Python rounds ties to
even; this model rounds ties up.  No input used in this development hits an exact
half-cent, and no theorem depends on the tie direction.) -/
def round2 (q : ℚ) : ℚ := (round (q * 100) : ℤ) / 100

/-- `DataProcessor.calculate_demand_level` (data_processor.py:108-125).  The
`avg_price` argument is received but never used by the source. -/
def calculate_demand_level (search_volume : ℕ) (avg_price : ℚ) : String :=
  if search_volume ≥ 20 then "very_high"
  else if search_volume ≥ 10 then "high"
  else if search_volume ≥ 5 then "medium"
  else "low"

/-- The queryset
`MarketDemand.objects.filter(route=route, date__gte=week_ago, date__lt=current_date)`
with `week_ago = current_date - 7` (data_processor.py:83-88). -/
def histOf (store : List MDRec) (routeId : ℕ) (current_date : ℤ) : List MDRec :=
  store.filter (fun x =>
    decide (x.route = routeId ∧ current_date - 7 ≤ x.date ∧ x.date < current_date))

/-- `historical_data.order_by('-date').first()`: the most recent record of the
history window, `none` when the window is empty.  With several records of equal
maximal date the fold keeps the earliest-listed one; under the (route, date)
uniqueness invariant of the table the maximal date is unique. -/
def historyPick (store : List MDRec) (routeId : ℕ) (current_date : ℤ) : Option MDRec :=
  match histOf store routeId current_date with
  | [] => none
  | x :: xs => some (xs.foldl (fun b c => if c.date > b.date then c else b) x)

/-- `DataProcessor.calculate_price_trend` (data_processor.py:79-106).  A zero
`recent_price` makes Python raise `ZeroDivisionError`, caught by the function's
handler which returns `"stable"`; rational division by zero yields `0`, whose
relative change also classifies as `"stable"`, so the branches agree. -/
def calculate_price_trend (store : List MDRec) (routeId : ℕ) (current_date : ℤ)
    (current_price : ℚ) : String :=
  match historyPick store routeId current_date with
  | none => "stable"
  | some r =>
    let recent_price := r.average_price
    let price_change := (current_price - recent_price) / recent_price
    if price_change > 1/10 then "increasing"
    else if price_change < -(1/10) then "decreasing"
    else "stable"

/-- `MarketDemand.objects.update_or_create(route=..., date=..., defaults=...)`:
replace the fields of every row with the given key, or append a fresh row; the
boolean is Django's `created` flag. -/
def upsert (store : List MDRec) (r : ℕ) (d : ℤ) (vol : ℕ) (avg : ℚ)
    (tr lv : String) : List MDRec × Bool :=
  if store.any (fun x => decide (x.route = r ∧ x.date = d)) then
    (store.map (fun x =>
      if decide (x.route = r ∧ x.date = d) then
        { x with search_volume := vol, average_price := avg,
                 price_trend := tr, demand_level := lv }
      else x), false)
  else
    (store ++ [⟨r, d, vol, avg, tr, lv⟩], true)

/-- Key lookup in the `MarketDemand` table. -/
def lookupMD (store : List MDRec) (r : ℕ) (d : ℤ) : Option MDRec :=
  store.find? (fun x => decide (x.route = r ∧ x.date = d))

/-- The grouping key `(route.id, departure_time.date())` (data_processor.py:34-37). -/
def keyFD (f : Flight) : ℕ × ℤ := (f.routeId, f.depDate)

/-- The keys of `route_date_groups`, in the order Python's dict iterates them. -/
def groupKeys (flights : List Flight) : List (ℕ × ℤ) := keysOf keyFD flights

/-- The result dict of `DataProcessor.process_flight_data`. -/
structure AggResult where
  processed : ℕ
  insights_generated : ℕ
  error : Option String
deriving DecidableEq, Repr

/-- `prices = [float(f.price) for f in flights]` (data_processor.py:47): the
whole list of a group's prices, or `none` when some observation's price is
missing and `float(None)` raises. -/
def pricesOf (g : List Flight) : Option (List ℚ) :=
  g.mapM (fun f => f.price)

/-- The group-processing loop of `DataProcessor.process_flight_data`
(data_processor.py:43-70), threading the `MarketDemand` store, the `created`
counter and the store-call index.  A missing price makes `float(f.price)` raise,
which the outer handler turns into an error result; a store fault at
`update_or_create` does the same.  Either way the loop stops and the store
mutations made so far persist. -/
def runGroups (faults : ℕ → Bool) (flights : List Flight) :
    List (ℕ × ℤ) → List MDRec → ℕ → ℕ → List MDRec × ℕ × Option String
  | [], store, created, _ => (store, created, none)
  | k :: ks, store, created, calls =>
    let g := groupOf keyFD flights k
    match pricesOf g with
    | none => (store, created, some "TypeError: float() argument must not be None")
    | some prices =>
      let avg_price := prices.sum / (prices.length : ℚ)
      let price_trend := calculate_price_trend store k.1 k.2 avg_price
      let demand_level := calculate_demand_level g.length avg_price
      if faults calls then (store, created, some "StoreFailure")
      else
        let res := upsert store k.1 k.2 g.length (round2 avg_price) price_trend demand_level
        runGroups faults flights ks res.1 (created + if res.2 then 1 else 0) (calls + 1)

/-- `DataProcessor.process_flight_data` (data_processor.py:15-77) over an already
windowed observation list, with a fault schedule for the store writes. -/
def processFlightDataF (faults : ℕ → Bool) (flights : List Flight)
    (store : List MDRec) : AggResult × List MDRec :=
  if flights.isEmpty then ({ processed := 0, insights_generated := 0, error := none }, store)
  else
    match runGroups faults flights (groupKeys flights) store 0 0 with
    | (store', created, none) =>
      ({ processed := created, insights_generated := 0, error := none }, store')
    | (store', _, some e) =>
      ({ processed := 0, insights_generated := 0, error := some e }, store')

/-- A store that never fails. -/
def noFaults : ℕ → Bool := fun _ => false

/-- `DataProcessor.process_flight_data` with the store healthy. -/
def process_flight_data (flights : List Flight) (store : List MDRec) :
    AggResult × List MDRec :=
  processFlightDataF noFaults flights store

/-! ### AIProcessor (`analyzer/ai_processor.py`) -/

/-- Python string formatting `{x:.2f}` for the dollar amounts embedded in insight
descriptions (used on nonnegative prices; tie rounding as in `round2`). -/
def fmt2 (q : ℚ) : String :=
  let c : ℤ := round (q * 100)
  let n : ℕ := c.natAbs
  let body := toString (n / 100) ++ "." ++
    (if n % 100 < 10 then "0" ++ toString (n % 100) else toString (n % 100))
  if c < 0 then "-" ++ body else body

/-- Python string formatting `{x:.1f}` for the weekend-premium percentage. -/
def fmt1 (q : ℚ) : String :=
  let c : ℤ := round (q * 10)
  let n : ℕ := c.natAbs
  let body := toString (n / 10) ++ "." ++ toString (n % 10)
  if c < 0 then "-" ++ body else body

/-- An insight candidate dict as the analyzers produce it: keys `title`,
`description`, `type`, `confidence`.  `confidence` is optional because the save
loop reads it with `insight_data.get('confidence', 0.8)`. -/
structure InsightCandidate where
  title : String
  description : String
  insight_type : String
  confidence : Option ℚ
deriving DecidableEq, Repr

/-- `f"{origin.iata_code}-{destination.iata_code}"` (ai_processor.py:134). -/
def iataKey (f : Flight) : String := f.originIata ++ "-" ++ f.destIata

/-- `f"{origin.city} to {destination.city}"` (ai_processor.py:178). -/
def cityKey (f : Flight) : String := f.originCity ++ " to " ++ f.destCity

/-- `float(flight.price)` for a flight whose price is present. -/
def priceQ (f : Flight) : ℚ := f.price.getD 0

/-- Python `min(prices)` over a nonempty list. -/
def listMin : List ℚ → ℚ
  | [] => 0
  | x :: xs => xs.foldl min x

/-- Python `max(prices)` over a nonempty list. -/
def listMax : List ℚ → ℚ
  | [] => 0
  | x :: xs => xs.foldl max x

/-- Title of the volatility candidate (ai_processor.py:152). -/
def highTitle (k : String) : String := "High Price Volatility on " ++ k ++ " Route"

/-- Title of the budget candidate (ai_processor.py:159). -/
def budgetTitle (k : String) : String := "Budget-Friendly Route: " ++ k

/-- Description of the volatility candidate (ai_processor.py:153). -/
def highDesc (k : String) (mn mx avg : ℚ) : String :=
  "The " ++ k ++ " route shows significant price fluctuations with prices ranging from $"
    ++ fmt2 mn ++ " to $" ++ fmt2 mx ++ " (average: $" ++ fmt2 avg
    ++ "). This indicates high demand variability or limited seat availability."

/-- Description of the budget candidate (ai_processor.py:160). -/
def budgetDesc (k : String) (avg : ℚ) : String :=
  "The " ++ k ++ " route offers competitive pricing with an average of $" ++ fmt2 avg
    ++ ". This route shows stable, affordable pricing suitable for budget-conscious travelers."

/-- The volatility candidate emitted when volatility exceeds 0.5. -/
def highVolCand (k : String) (mn mx avg : ℚ) : InsightCandidate :=
  ⟨highTitle k, highDesc k mn mx avg, "price_trend", some (17/20)⟩

/-- The budget candidate emitted when the average price is below 200. -/
def budgetCand (k : String) (avg : ℚ) : InsightCandidate :=
  ⟨budgetTitle k, budgetDesc k avg, "price_trend", some (9/10)⟩

/-- The per-route body of the loop of `AIProcessor.analyze_price_trends`
(ai_processor.py:140-163): groups with fewer than 3 prices are skipped (no
candidate); with at least 3 prices the division
`(max_price - min_price) / avg_price` raises `ZeroDivisionError` when the
group's mean price is zero — the `none` result; otherwise at most one candidate,
the volatility condition checked before the budget one. -/
def volatilityCandidate (k : String) (prices : List ℚ) :
    Option (List InsightCandidate) :=
  if prices.length < 3 then some []
  else
    let avg_price := prices.sum / (prices.length : ℚ)
    let min_price := listMin prices
    let max_price := listMax prices
    if avg_price = 0 then none
    else
      let price_volatility := (max_price - min_price) / avg_price
      if price_volatility > 1/2 then some [highVolCand k min_price max_price avg_price]
      else if avg_price < 200 then some [budgetCand k avg_price]
      else some []

/-- The analysis loop of `AIProcessor.analyze_price_trends`: route groups are
visited in key-insertion order and candidates accumulate in `acc`; a
`ZeroDivisionError` at a zero-mean group propagates to the function's handler,
which returns the `insights` accumulated so far — that route and every later
route contribute nothing. -/
def volatilityLoop :
    List (String × List Flight) → List InsightCandidate → List InsightCandidate
  | [], acc => acc
  | g :: gs, acc =>
    match volatilityCandidate g.1 (g.2.map priceQ) with
    | none => acc
    | some cs => volatilityLoop gs (acc ++ cs)

/-- `AIProcessor.analyze_price_trends` (ai_processor.py:126-168): group by the
iata route key, analyze each group in key-insertion order.  A missing price makes
`float(flight.price)` raise while the grouping dict is being built, before any
candidate is appended; the handler then returns the empty list. -/
def analyze_price_trends (flights : List Flight) : List InsightCandidate :=
  if flights.all (fun f => f.price.isSome) then
    volatilityLoop (groupsOf iataKey flights) []
  else []

/-- One entry of the `route_counts` dict of `AIProcessor.analyze_popular_routes`:
the city-pair name, the iata pair recorded when the key was first created, and
the running flight count. -/
structure RouteCount where
  name : String
  iata : String
  count : ℕ
deriving DecidableEq, Repr

/-- The fully built `route_counts` dict (ai_processor.py:176-183), in key
insertion order. -/
def routeCounts (flights : List Flight) : List RouteCount :=
  (groupsOf cityKey flights).map
    (fun g => ⟨g.1, (g.2.head?.map iataKey).getD "", g.2.length⟩)

/-- The comparison under `sorted(..., key=lambda x: count, reverse=True)`:
`a` may come before `b` when `a`'s count is at least `b`'s. -/
def countGE (a b : RouteCount) : Prop := b.count ≤ a.count

instance : DecidableRel countGE := fun a b => Nat.decLe b.count a.count

instance : IsTotal RouteCount countGE := ⟨fun a b => Nat.le_total b.count a.count⟩

instance : IsTrans RouteCount countGE := ⟨fun _ _ _ hab hbc => Nat.le_trans hbc hab⟩

/-- `sorted(route_counts.items(), key=lambda x: x[1]['count'], reverse=True)`:
Python's sort is stable also under `reverse=True`, which insertion sort by the
non-strict descending comparison reproduces exactly. -/
def sortRoutesDesc (l : List RouteCount) : List RouteCount := l.insertionSort countGE

/-- `f'Popular Route #{i+1}: {route_name}'` (ai_processor.py:191). -/
def popTitle (i : ℕ) (name : String) : String :=
  "Popular Route #" ++ toString (i + 1) ++ ": " ++ name

/-- Description of a popularity candidate (ai_processor.py:192). -/
def popDesc (name iata : String) (count : ℕ) : String :=
  name ++ " (" ++ iata ++ ") is showing high activity with " ++ toString count
    ++ " flights in the analyzed period. This route demonstrates strong market demand and frequent service availability."

/-- The ranked candidate for the route at 0-based rank `i`. -/
def popCand (i : ℕ) (rc : RouteCount) : InsightCandidate :=
  ⟨popTitle i rc.name, popDesc rc.name rc.iata rc.count, "popular_route", some (9/10)⟩

/-- `AIProcessor.analyze_popular_routes` (ai_processor.py:170-200): count flights
per city-pair route, sort descending by count (stable), take the top 3, emit one
ranked candidate each. -/
def analyze_popular_routes (flights : List Flight) : List InsightCandidate :=
  ((sortRoutesDesc (routeCounts flights)).take 3).enum.map (fun p => popCand p.1 p.2)

/-- Description of the weekend-premium candidate (ai_processor.py:242). -/
def seasonalDesc (avg_weekend avg_weekday : ℚ) : String :=
  "Weekend flights show premium pricing with an average of $" ++ fmt2 avg_weekend
    ++ " compared to $" ++ fmt2 avg_weekday ++ " for weekday flights. This represents a "
    ++ fmt1 ((avg_weekend / avg_weekday - 1) * 100) ++ "% weekend premium."

/-- `AIProcessor.analyze_seasonal_patterns` (ai_processor.py:202-250) over the
flights of its own 10-day departure-date window.  `weekday() >= 5` marks
Saturday/Sunday; with day 0 a Monday that is `depDate % 7 >= 5`.  A missing
price raises while the price buckets are built, yielding no candidates.  When
the premium condition holds with a zero weekday mean, the percentage
`(weekend/weekday - 1) * 100` in the description's f-string raises
`ZeroDivisionError` before the candidate is appended, and the handler returns
the still-empty list. -/
def analyze_seasonal_patterns (flights : List Flight) : List InsightCandidate :=
  if flights.isEmpty then []
  else if flights.all (fun f => f.price.isSome) then
    let weekend_prices := (flights.filter (fun f => decide (5 ≤ f.depDate % 7))).map priceQ
    let weekday_prices := (flights.filter (fun f => !decide (5 ≤ f.depDate % 7))).map priceQ
    if weekend_prices.isEmpty || weekday_prices.isEmpty then []
    else
      let avg_weekend_price := weekend_prices.sum / (weekend_prices.length : ℚ)
      let avg_weekday_price := weekday_prices.sum / (weekday_prices.length : ℚ)
      if avg_weekend_price > avg_weekday_price * (11/10) then
        if avg_weekday_price = 0 then []
        else
          [⟨"Weekend Premium Pricing Pattern", seasonalDesc avg_weekend_price avg_weekday_price,
            "seasonal_pattern", some (17/20)⟩]
      else []
  else []

/-! ### The Insight store and the save loops -/

/-- One row of the `Insight` table (`analyzer.models.Insight`); the wall-clock
`created_at` column is not modelled. -/
structure Insight where
  id : ℕ
  title : String
  description : String
  insight_type : String
  confidence_score : ℚ
  generated_by : String
deriving DecidableEq, Repr

/-- The `Insight` table plus the database id counter and the store-call index
consulted by the fault schedule. -/
structure InsightStore where
  recs : List Insight
  nextId : ℕ
  calls : ℕ
deriving DecidableEq, Repr

/-- `Insight.objects.get_or_create(title=..., defaults=...)` with a fault
schedule: one store call; on a fault the call raises and the table is untouched.
Otherwise return the first row with the candidate's title unchanged
(`created = false`), or insert a fresh row built from the candidate
(`created = true`).  The confidence default mirrors
`insight_data.get('confidence', 0.8)`; the mock loop reads the key directly but
all mock candidates carry a confidence, so the default never fires there. -/
def get_or_create_f (faults : ℕ → Bool) (tag : String) (st : InsightStore)
    (c : InsightCandidate) : InsightStore × Except String (Insight × Bool) :=
  if faults st.calls then ({ st with calls := st.calls + 1 }, Except.error "StoreFailure")
  else
    match st.recs.find? (fun r => r.title == c.title) with
    | some r => ({ st with calls := st.calls + 1 }, Except.ok (r, false))
    | none =>
      let r : Insight := ⟨st.nextId, c.title, c.description, c.insight_type,
        c.confidence.getD (4/5), tag⟩
      (⟨st.recs ++ [r], st.nextId + 1, st.calls + 1⟩, Except.ok (r, true))

/-- The save loop shared by `generate_insights` (ai_processor.py:54-66, tag
`AI_Processor`) and `generate_mock_insights` (ai_processor.py:317-329, tag
`Mock_AI_Processor`): `get_or_create` per candidate, collecting the newly
created rows; the first store fault aborts the loop, keeping the table state
reached so far. -/
def saveInsights_f (faults : ℕ → Bool) (tag : String) :
    List InsightCandidate → InsightStore → List Insight →
    InsightStore × Except String (List Insight)
  | [], st, acc => (st, Except.ok acc)
  | c :: cs, st, acc =>
    match get_or_create_f faults tag st c with
    | (st', Except.error e) => (st', Except.error e)
    | (st', Except.ok (r, created)) =>
      saveInsights_f faults tag cs st' (if created then acc ++ [r] else acc)

/-- `AIProcessor.serialize_insight` (ai_processor.py:333-343); the ISO timestamp
field is not modelled. -/
structure SerializedInsight where
  id : ℕ
  title : String
  description : String
  insight_type : String
  confidence : ℚ
  generated_by : String
deriving DecidableEq, Repr

/-- Serialization of a stored insight for the API response. -/
def serialize_insight (r : Insight) : SerializedInsight :=
  ⟨r.id, r.title, r.description, r.insight_type, r.confidence_score, r.generated_by⟩

/-- The fixed mock candidate list of `AIProcessor.generate_mock_insights`
(ai_processor.py:295-314). -/
def mockInsightCandidates : List InsightCandidate :=
  [⟨"Sydney-Melbourne Route Shows Strong Demand",
    "The Sydney to Melbourne route demonstrates consistent high booking volume with competitive pricing averaging $180-220. This route represents a key opportunity for business travelers and weekend getaways.",
    "popular_route", some (17/20)⟩,
   ⟨"Weekend Premium Pricing Detected",
    "Flight prices show a 15-25% increase during weekends across major Australian routes. This premium pricing indicates higher leisure travel demand on weekends.",
    "seasonal_pattern", some (9/10)⟩,
   ⟨"Brisbane-Gold Coast Corridor Opportunity",
    "The Brisbane to Gold Coast route shows growing demand with relatively stable pricing. This short-haul route could benefit from increased frequency during peak tourist seasons.",
    "demand_forecast", some (3/4)⟩]

/-- `AIProcessor.generate_mock_insights` (ai_processor.py:293-331): store the
fixed mock candidates under tag `Mock_AI_Processor` and serialize the newly
created rows.  The function has no handler of its own, so a store fault
propagates to its caller. -/
def generate_mock_insights_f (faults : ℕ → Bool) (st : InsightStore) :
    InsightStore × Except String (List SerializedInsight) :=
  match saveInsights_f faults "Mock_AI_Processor" mockInsightCandidates st [] with
  | (st', Except.ok saved) => (st', Except.ok (saved.map serialize_insight))
  | (st', Except.error e) => (st', Except.error e)

/-- The concatenated candidate list of `AIProcessor.generate_insights`
(ai_processor.py:36-51): price-trend analyzer, popularity analyzer, seasonal
analyzer, then the Gemini candidates.  The Gemini call is an external
text-generation capability, so its parsed candidate list is a parameter; it is
`[]` when no model is configured or the response fails to parse. -/
def candsOf (recent seasonal : List Flight) (gemini : List InsightCandidate) :
    List InsightCandidate :=
  analyze_price_trends recent ++ analyze_popular_routes recent
    ++ analyze_seasonal_patterns seasonal ++ gemini

/-- `AIProcessor.generate_insights` (ai_processor.py:22-72).  `recent` is the
7-day `scraped_at` window queryset, `seasonal` the 10-day departure window
queryset read by the seasonal analyzer.  The whole body sits in a `try` whose
handler returns `generate_mock_insights()`; the handler call itself is
unprotected, so a fault inside it propagates. -/
def generate_insights_f (faults : ℕ → Bool) (recent seasonal : List Flight)
    (gemini : List InsightCandidate) (st : InsightStore) :
    InsightStore × Except String (List SerializedInsight) :=
  let body :=
    if recent.isEmpty then generate_mock_insights_f faults st
    else
      match saveInsights_f faults "AI_Processor" (candsOf recent seasonal gemini) st [] with
      | (st', Except.ok saved) => (st', Except.ok (saved.map serialize_insight))
      | (st', Except.error e) => (st', Except.error e)
  match body with
  | (st', Except.ok out) => (st', Except.ok out)
  | (st', Except.error _) => generate_mock_insights_f faults st'

/-- `AIProcessor.generate_insights` with the store healthy. -/
def generate_insights (recent seasonal : List Flight) (gemini : List InsightCandidate)
    (st : InsightStore) : InsightStore × Except String (List SerializedInsight) :=
  generate_insights_f noFaults recent seasonal gemini st

/-- `AIProcessor.generate_mock_insights` with the store healthy. -/
def generate_mock_insights (st : InsightStore) :
    InsightStore × Except String (List SerializedInsight) :=
  generate_mock_insights_f noFaults st

/-- The title-uniqueness invariant of the `Insight` table. -/
def titlesUnique (recs : List Insight) : Prop :=
  (recs.map (fun r => r.title)).Nodup

/-! ### Projections and concrete inputs used by the theorems -/

/-- The fields of a `MarketDemand` row other than the price trend. -/
def projVAL (x : MDRec) : ℕ × ℚ × String :=
  (x.search_volume, x.average_price, x.demand_level)

/-- Trend-free view of the row stored under a key. -/
def lookupProj (store : List MDRec) (r : ℕ) (d : ℤ) : Option (ℕ × ℚ × String) :=
  (lookupMD store r d).map projVAL

/-- The trend-free fields the aggregation loop writes for a group key: volume,
rounded mean price and demand level, all determined by the input batch alone. -/
def projFor (flights : List Flight) (k : ℕ × ℤ) : ℕ × ℚ × String :=
  let g := groupOf keyFD flights k
  let ps := g.map priceQ
  (g.length, round2 (ps.sum / (ps.length : ℚ)),
    calculate_demand_level g.length (ps.sum / (ps.length : ℚ)))

/-- The departure dates of one route's groups, in the order the aggregation loop
processes them. -/
def routeDatesInOrder (r : ℕ) (flights : List Flight) : List ℤ :=
  ((groupKeys flights).filter (fun k => decide (k.1 = r))).map (fun k => k.2)

/-- Two observations of one route, the later date encountered first. -/
def exTwoDates : List Flight :=
  [⟨0, "SYD", "MEL", "Sydney", "Melbourne", 1, some 200⟩,
   ⟨0, "SYD", "MEL", "Sydney", "Melbourne", 0, some 100⟩]

/-- As `exTwoDates` but with dates 5 and 3, for the processing-order statement. -/
def exOrder : List Flight :=
  [⟨0, "SYD", "MEL", "Sydney", "Melbourne", 5, some 100⟩,
   ⟨0, "SYD", "MEL", "Sydney", "Melbourne", 3, some 100⟩]

/-- A batch whose first observation lacks a price and whose second belongs to a
different group. -/
def exMalformed : List Flight :=
  [⟨0, "SYD", "MEL", "Sydney", "Melbourne", 0, none⟩,
   ⟨1, "BNE", "OOL", "Brisbane", "Gold Coast", 0, some 100⟩]

/-- Three cheap same-route observations: the volatility analyzer emits exactly
the budget candidate for them. -/
def exBudget : List Flight :=
  [⟨0, "SYD", "MEL", "Sydney", "Melbourne", 0, some 50⟩,
   ⟨0, "SYD", "MEL", "Sydney", "Melbourne", 1, some 50⟩,
   ⟨0, "SYD", "MEL", "Sydney", "Melbourne", 2, some 50⟩]

/-- Three zero-priced observations of one route followed by three cheap
observations of another: the zero-mean first group makes the volatility
analyzer's division raise. -/
def exZeroAbort : List Flight :=
  [⟨0, "ZQN", "WLG", "Queenstown", "Wellington", 0, some 0⟩,
   ⟨0, "ZQN", "WLG", "Queenstown", "Wellington", 1, some 0⟩,
   ⟨0, "ZQN", "WLG", "Queenstown", "Wellington", 2, some 0⟩,
   ⟨1, "SYD", "MEL", "Sydney", "Melbourne", 0, some 50⟩,
   ⟨1, "SYD", "MEL", "Sydney", "Melbourne", 1, some 50⟩,
   ⟨1, "SYD", "MEL", "Sydney", "Melbourne", 2, some 50⟩]

/-- `n` observations of one city pair. -/
def repRoute (o d : String) (n : ℕ) : List Flight :=
  List.replicate n ⟨0, o, d, o, d, 0, some 100⟩

/-- Route counts B=9, C=9, A=5, with B encountered before C. -/
def exPopularity : List Flight :=
  repRoute "B" "X" 9 ++ repRoute "C" "X" 9 ++ repRoute "A" "X" 5

/-- A fault schedule whose first store call fails and every later one succeeds
(a transient store failure). -/
def faultFirstCall : ℕ → Bool := fun n => n == 0

/-- An empty `Insight` store. -/
def emptyIS : InsightStore := ⟨[], 0, 0⟩

/-- What storing the fixed mock candidates into a fresh store yields: ids 0, 1, 2
and the generator tag `Mock_AI_Processor` on every row. -/
def mockFreshOutput : List SerializedInsight :=
  mockInsightCandidates.enum.map (fun p =>
    ⟨p.1, p.2.title, p.2.description, p.2.insight_type, p.2.confidence.getD (4/5),
      "Mock_AI_Processor"⟩)

/-- A single-row `MarketDemand` store: route 0, date 9, average price 100. -/
def exHistStore : List MDRec := [⟨0, 9, 5, 100, "stable", "low"⟩]

/-- The candidates of the volatility analyzer's output that concern the route
key `k`: those whose title is `k`'s volatility or budget title. -/
def routeEmitted (out : List InsightCandidate) (k : String) : List InsightCandidate :=
  out.filter (fun c => c.title == highTitle k || c.title == budgetTitle k)

/-! ### Lemmas about insertion-ordered grouping -/

lemma mem_keyInsert {κ : Type} [DecidableEq κ] (ks : List κ) (a k : κ) :
    k ∈ keyInsert ks a ↔ k ∈ ks ∨ k = a := by
  unfold keyInsert
  split_ifs with h
  · exact ⟨Or.inl, fun hk => hk.elim id (fun e => e ▸ h)⟩
  · simp

lemma nodup_keyInsert {κ : Type} [DecidableEq κ] (ks : List κ) (a : κ)
    (h : ks.Nodup) : (keyInsert ks a).Nodup := by
  unfold keyInsert
  split_ifs with hm
  · exact h
  · simp [List.nodup_append, h, hm]

lemma foldl_keyInsert_mem {α κ : Type} [DecidableEq κ] (key : α → κ) (l : List α) :
    ∀ (init : List κ) (k : κ),
      k ∈ l.foldl (fun ks a => keyInsert ks (key a)) init ↔
        k ∈ init ∨ ∃ a ∈ l, key a = k := by
  induction l with
  | nil => intro init k; simp
  | cons a l ih =>
    intro init k
    simp only [List.foldl_cons]
    rw [ih, mem_keyInsert]
    constructor
    · rintro ((h | rfl) | ⟨b, hb, rfl⟩)
      · exact Or.inl h
      · exact Or.inr ⟨a, List.mem_cons_self a l, rfl⟩
      · exact Or.inr ⟨b, List.mem_cons_of_mem a hb, rfl⟩
    · rintro (h | ⟨b, hb, rfl⟩)
      · exact Or.inl (Or.inl h)
      · rcases List.mem_cons.1 hb with rfl | hb
        · exact Or.inl (Or.inr rfl)
        · exact Or.inr ⟨b, hb, rfl⟩

lemma foldl_keyInsert_nodup {α κ : Type} [DecidableEq κ] (key : α → κ) (l : List α) :
    ∀ (init : List κ), init.Nodup →
      (l.foldl (fun ks a => keyInsert ks (key a)) init).Nodup := by
  induction l with
  | nil => intro init h; exact h
  | cons a l ih =>
    intro init h
    exact ih _ (nodup_keyInsert _ _ h)

lemma mem_keysOf {α κ : Type} [DecidableEq κ] {key : α → κ} {l : List α} {a : α}
    (h : a ∈ l) : key a ∈ keysOf key l :=
  (foldl_keyInsert_mem key l [] (key a)).2 (Or.inr ⟨a, h, rfl⟩)

lemma keysOf_nodup {α κ : Type} [DecidableEq κ] (key : α → κ) (l : List α) :
    (keysOf key l).Nodup :=
  foldl_keyInsert_nodup key l [] List.nodup_nil

lemma mem_groupOf_self {α κ : Type} [DecidableEq κ] {key : α → κ} {l : List α}
    {a : α} (h : a ∈ l) : a ∈ groupOf key l (key a) := by
  simp [groupOf, List.mem_filter, h]

lemma mem_of_mem_groupOf {α κ : Type} [DecidableEq κ] {key : α → κ} {l : List α}
    {a : α} {k : κ} (h : a ∈ groupOf key l k) : a ∈ l ∧ key a = k := by
  simpa [groupOf, List.mem_filter] using h

lemma mem_groupsOf {α κ : Type} [DecidableEq κ] {key : α → κ} {l : List α}
    {k : κ} {g : List α} (h : (k, g) ∈ groupsOf key l) :
    k ∈ keysOf key l ∧ g = groupOf key l k := by
  rcases List.mem_map.1 h with ⟨k', hk', he⟩
  cases he
  exact ⟨hk', rfl⟩

/-! ### Lemmas about the history pick of the trend classifier -/

lemma foldl_pick_mem :
    ∀ (ys : List MDRec) (y : MDRec),
      (ys.foldl (fun b c => if c.date > b.date then c else b) y) ∈ y :: ys := by
  intro ys
  induction ys with
  | nil => intro y; simp
  | cons c cs ih =>
    intro y
    simp only [List.foldl_cons]
    have h := ih (if c.date > y.date then c else y)
    rcases List.mem_cons.1 h with h1 | h1
    · rw [h1]
      split_ifs <;> simp
    · simp [h1]

lemma foldl_pick_le :
    ∀ (ys : List MDRec) (y z : MDRec), z ∈ y :: ys →
      z.date ≤ (ys.foldl (fun b c => if c.date > b.date then c else b) y).date := by
  intro ys
  induction ys with
  | nil =>
    intro y z hz
    rcases List.mem_cons.1 hz with rfl | h
    · exact le_refl _
    · cases h
  | cons c cs ih =>
    intro y z hz
    simp only [List.foldl_cons]
    rcases List.mem_cons.1 hz with rfl | hz1
    · refine le_trans ?_ (ih _ _ (List.mem_cons_self _ _))
      split_ifs with h <;> omega
    · rcases List.mem_cons.1 hz1 with rfl | hz2
      · refine le_trans ?_ (ih _ _ (List.mem_cons_self _ _))
        split_ifs with h <;> omega
      · exact ih _ _ (List.mem_cons_of_mem _ hz2)

lemma historyPick_spec (store : List MDRec) (r : ℕ) (d : ℤ) (x : MDRec)
    (hx : historyPick store r d = some x) :
    x ∈ histOf store r d ∧ ∀ y ∈ histOf store r d, y.date ≤ x.date := by
  unfold historyPick at hx
  rcases h : histOf store r d with _ | ⟨y, ys⟩
  · rw [h] at hx; cases hx
  · rw [h] at hx
    have hx' : (ys.foldl (fun b c => if c.date > b.date then c else b) y) = x :=
      Option.some.inj hx
    constructor
    · rw [← hx']; exact foldl_pick_mem ys y
    · intro z hz
      rw [← hx']
      exact foldl_pick_le ys y z hz

lemma mem_histOf {store : List MDRec} {r : ℕ} {d : ℤ} {x : MDRec}
    (h : x ∈ histOf store r d) :
    x ∈ store ∧ x.route = r ∧ d - 7 ≤ x.date ∧ x.date < d := by
  have := List.mem_filter.1 h
  simpa [histOf, List.mem_filter] using h

/-! ### Claim C2 -/

/-- C2, as stated, is false: the aggregator iterates `route_date_groups` in
first-encounter order, not sorted by date.  On `exOrder` the groups of route 0
are processed with date 5 before date 3, a decreasing date order. -/
theorem C2_cex : routeDatesInOrder 0 exOrder = [5, 3] ∧ ¬ ((5 : ℤ) ≤ 3) := by
  decide

/-- C2 (amended): groups are processed in first-encounter order, not sorted by
date; nevertheless the trend classification for a group of route `r` and date
`d` can only ever consult a `MarketDemand` record whose date lies in the window
`[d-7, d)` — strictly before `d` — so a record computed from observations of a
date at or after `d` (records are keyed by the date of the observations that
produced them) is never used as history. -/
theorem C2_thm (store : List MDRec) (r : ℕ) (d : ℤ) (x : MDRec)
    (hx : historyPick store r d = some x) :
    x ∈ store ∧ x.route = r ∧ d - 7 ≤ x.date ∧ x.date < d :=
  mem_histOf (historyPick_spec store r d x hx).1

/-- Witness for C2: on the one-row store the history pick for route 0, date 10
is that row, and the theorem places its date inside `[3, 10)`. -/
theorem C2_witness :
    (⟨0, 9, 5, 100, "stable", "low"⟩ : MDRec) ∈ exHistStore ∧
      (⟨0, 9, 5, 100, "stable", "low"⟩ : MDRec).route = 0 ∧
      (10 : ℤ) - 7 ≤ (⟨0, 9, 5, 100, "stable", "low"⟩ : MDRec).date ∧
      (⟨0, 9, 5, 100, "stable", "low"⟩ : MDRec).date < 10 :=
  C2_thm exHistStore 0 10 ⟨0, 9, 5, 100, "stable", "low"⟩ (by decide)

/-! ### Claim C4 -/

/-- C4: the price-trend classification.  With no `MarketDemand` record for the
route dated in the 7 days strictly before the current date the trend is
`stable`; otherwise the most recent such record supplies `prior_avg` and the
trend is `increasing` when the relative change exceeds 0.10, `decreasing` when
it is below -0.10, and `stable` otherwise; prior 100 with new averages 111, 89,
105 give increasing, decreasing, stable. -/
theorem C4_thm (store : List MDRec) (r : ℕ) (d : ℤ) (cur : ℚ) :
    (histOf store r d = [] → calculate_price_trend store r d cur = "stable") ∧
    (∀ x, historyPick store r d = some x →
      x ∈ histOf store r d ∧ (∀ y ∈ histOf store r d, y.date ≤ x.date) ∧
      calculate_price_trend store r d cur =
        (if (cur - x.average_price) / x.average_price > 1/10 then "increasing"
         else if (cur - x.average_price) / x.average_price < -(1/10) then "decreasing"
         else "stable")) ∧
    (histOf store r d ≠ [] → (historyPick store r d).isSome = true) ∧
    (calculate_price_trend exHistStore 0 10 111 = "increasing" ∧
     calculate_price_trend exHistStore 0 10 89 = "decreasing" ∧
     calculate_price_trend exHistStore 0 10 105 = "stable") := by
  refine ⟨?_, ?_, ?_, by decide⟩
  · intro h
    simp [calculate_price_trend, historyPick, h]
  · intro x hx
    obtain ⟨h1, h2⟩ := historyPick_spec store r d x hx
    refine ⟨h1, h2, ?_⟩
    simp only [calculate_price_trend]
    rw [hx]
  · intro h
    rcases he : histOf store r d with _ | ⟨y, ys⟩
    · exact absurd he h
    · simp [historyPick, he]

/-- Witness for C4: the empty store classifies as `stable`. -/
theorem C4_witness : calculate_price_trend ([] : List MDRec) 0 10 105 = "stable" :=
  (C4_thm [] 0 10 105).1 rfl

/-! ### Claim C5 -/

/-- C5: the demand level is a pure function of the observation count against the
fixed thresholds 20, 10, 5, and ignores the price argument; counts 20, 19, 10,
9, 5, 4 classify as very_high, high, high, medium, medium, low. -/
theorem C5_thm (v : ℕ) (p q : ℚ) :
    calculate_demand_level v p = calculate_demand_level v q ∧
    (calculate_demand_level v p = "very_high" ↔ 20 ≤ v) ∧
    (calculate_demand_level v p = "high" ↔ 10 ≤ v ∧ v < 20) ∧
    (calculate_demand_level v p = "medium" ↔ 5 ≤ v ∧ v < 10) ∧
    (calculate_demand_level v p = "low" ↔ v < 5) ∧
    (calculate_demand_level 20 p = "very_high" ∧ calculate_demand_level 19 p = "high" ∧
     calculate_demand_level 10 p = "high" ∧ calculate_demand_level 9 p = "medium" ∧
     calculate_demand_level 5 p = "medium" ∧ calculate_demand_level 4 p = "low") := by
  unfold calculate_demand_level
  refine ⟨rfl, ?_, ?_, ?_, ?_, by norm_num⟩ <;>
    split_ifs <;> simp_all <;> omega

/-- Witness for C5: the price argument does not influence the level at count 20. -/
theorem C5_witness : calculate_demand_level 20 0 = calculate_demand_level 20 1 :=
  (C5_thm 20 0 1).1

/-! ### Lemmas about the Insight store -/

lemma get_or_create_titlesUnique (faults : ℕ → Bool) (tag : String)
    (st : InsightStore) (c : InsightCandidate) (h : titlesUnique st.recs) :
    titlesUnique (get_or_create_f faults tag st c).1.recs := by
  unfold get_or_create_f
  split_ifs with hf
  · exact h
  · rcases hfind : st.recs.find? (fun r => r.title == c.title) with _ | r <;> rw [hfind]
    · simp only [titlesUnique, List.map_append, List.map_cons, List.map_nil]
      rw [List.nodup_append]
      refine ⟨h, List.nodup_singleton _, ?_⟩
      intro t ht ht'
      rcases List.mem_map.1 ht with ⟨r, hr, rfl⟩
      have := List.find?_eq_none.1 hfind r hr
      simp only [List.mem_singleton] at ht'
      exact this (by simpa using ht')
    · exact h

lemma get_or_create_existing (faults : ℕ → Bool) (tag : String)
    (st : InsightStore) (c : InsightCandidate)
    (h : ∃ r ∈ st.recs, r.title = c.title) :
    (get_or_create_f faults tag st c).1.recs = st.recs := by
  unfold get_or_create_f
  split_ifs with hf
  · rfl
  · have hs : (st.recs.find? (fun r => r.title == c.title)).isSome = true := by
      rcases h with ⟨r, hr, he⟩
      exact List.find?_isSome.2 ⟨r, hr, by simpa using he⟩
    rcases hfind : st.recs.find? (fun r => r.title == c.title) with _ | r <;> rw [hfind]
    rw [hfind] at hs; cases hs

lemma saveInsights_titlesUnique (faults : ℕ → Bool) (tag : String) :
    ∀ (cs : List InsightCandidate) (st : InsightStore) (acc : List Insight),
      titlesUnique st.recs →
      titlesUnique (saveInsights_f faults tag cs st acc).1.recs := by
  intro cs
  induction cs with
  | nil => intro st acc h; exact h
  | cons c cs ih =>
    intro st acc h
    have hpres := get_or_create_titlesUnique faults tag st c h
    simp only [saveInsights_f]
    rcases hg : get_or_create_f faults tag st c with ⟨st', res⟩
    rw [hg] at hpres
    rcases res with e | ⟨r, created⟩
    · exact hpres
    · exact ih st' _ hpres

lemma generate_mock_titlesUnique (faults : ℕ → Bool) (st : InsightStore)
    (h : titlesUnique st.recs) :
    titlesUnique (generate_mock_insights_f faults st).1.recs := by
  have hpres := saveInsights_titlesUnique faults "Mock_AI_Processor"
    mockInsightCandidates st [] h
  unfold generate_mock_insights_f
  rcases hs : saveInsights_f faults "Mock_AI_Processor" mockInsightCandidates st []
    with ⟨st', res⟩
  rw [hs] at hpres
  rcases res with e | saved <;> exact hpres

lemma generate_insights_titlesUnique (faults : ℕ → Bool)
    (recent seasonal : List Flight) (gemini : List InsightCandidate)
    (st : InsightStore) (h : titlesUnique st.recs) :
    titlesUnique (generate_insights_f faults recent seasonal gemini st).1.recs := by
  unfold generate_insights_f
  by_cases he : recent.isEmpty
  · simp only [he, if_true]
    rcases hm : generate_mock_insights_f faults st with ⟨st', res⟩
    have hpres := generate_mock_titlesUnique faults st h
    rw [hm] at hpres
    rcases res with e | out
    · exact generate_mock_titlesUnique faults st' hpres
    · exact hpres
  · simp only [he, if_false]
    rcases hs : saveInsights_f faults "AI_Processor" (candsOf recent seasonal gemini) st []
      with ⟨st', res⟩
    have hpres := saveInsights_titlesUnique faults "AI_Processor"
      (candsOf recent seasonal gemini) st [] h
    rw [hs] at hpres
    rcases res with e | saved
    · exact generate_mock_titlesUnique faults st' hpres
    · exact hpres

lemma saveInsights_noFaults_ok (tag : String) :
    ∀ (cs : List InsightCandidate) (st : InsightStore) (acc : List Insight),
      ∃ st' saved, saveInsights_f noFaults tag cs st acc = (st', Except.ok saved) := by
  intro cs
  induction cs with
  | nil => intro st acc; exact ⟨st, acc, rfl⟩
  | cons c cs ih =>
    intro st acc
    simp only [saveInsights_f, get_or_create_f, noFaults, Bool.false_eq_true, reduceIte]
    rcases hfind : st.recs.find? (fun r => r.title == c.title) with _ | r <;>
      rw [hfind] <;> exact ih _ _

/-! ### Claim C3 -/

/-- C3: title uniqueness of the Insight store.  Inserting a candidate whose
title is already stored leaves the stored rows unchanged (first-write-wins,
whatever the candidate's other fields and whatever the fault schedule), the save
loop shared by all insight-producing operations preserves the invariant for any
candidate list (hence for the rule-based analyzers and any Gemini-parsed
candidates alike), and both `generate_insights` and `generate_mock_insights`
preserve it under every fault schedule. -/
theorem C3_thm :
    (∀ (faults : ℕ → Bool) (tag : String) (st : InsightStore) (c : InsightCandidate),
      (∃ r ∈ st.recs, r.title = c.title) →
      (get_or_create_f faults tag st c).1.recs = st.recs) ∧
    (∀ (faults : ℕ → Bool) (tag : String) (cs : List InsightCandidate)
        (st : InsightStore) (acc : List Insight),
      titlesUnique st.recs → titlesUnique (saveInsights_f faults tag cs st acc).1.recs) ∧
    (∀ (faults : ℕ → Bool) (recent seasonal : List Flight)
        (gemini : List InsightCandidate) (st : InsightStore),
      titlesUnique st.recs →
      titlesUnique (generate_insights_f faults recent seasonal gemini st).1.recs) ∧
    (∀ (faults : ℕ → Bool) (st : InsightStore),
      titlesUnique st.recs → titlesUnique (generate_mock_insights_f faults st).1.recs) :=
  ⟨get_or_create_existing, saveInsights_titlesUnique,
   generate_insights_titlesUnique, generate_mock_titlesUnique⟩

/-- Witness for C3: a candidate with stored title `T` but a different
description leaves the one-row store unchanged. -/
theorem C3_witness :
    (get_or_create_f noFaults "AI_Processor"
      ⟨[⟨0, "T", "first description", "price_trend", 1/2, "AI_Processor"⟩], 1, 0⟩
      ⟨"T", "second, different description", "popular_route", some 1⟩).1.recs
      = [⟨0, "T", "first description", "price_trend", 1/2, "AI_Processor"⟩] :=
  C3_thm.1 noFaults "AI_Processor"
    ⟨[⟨0, "T", "first description", "price_trend", 1/2, "AI_Processor"⟩], 1, 0⟩
    ⟨"T", "second, different description", "popular_route", some 1⟩ (by decide)

/-! ### Claim C8 -/

/-- C8 (amended): an empty observation window always takes the mock-fallback
path, whatever the seasonal window and Gemini output; on a store not yet holding
the mock titles this stores and returns the fixed three-element mock set, every
row tagged `Mock_AI_Processor`, a tag distinct from the `AI_Processor` tag of
data-derived insights.  (Mock insights already stored are not returned again —
see the counterexample — so only newly created rows are reported.) -/
theorem C8_thm :
    (∀ (seasonal : List Flight) (gemini : List InsightCandidate) (st : InsightStore),
      generate_insights [] seasonal gemini st = generate_mock_insights st) ∧
    (generate_mock_insights emptyIS).2 = Except.ok mockFreshOutput ∧
    mockFreshOutput.length = 3 ∧
    (∀ s ∈ mockFreshOutput, s.generated_by = "Mock_AI_Processor") ∧
    "Mock_AI_Processor" ≠ "AI_Processor" := by
  refine ⟨?_, by decide, by decide, by decide, by decide⟩
  intro seasonal gemini st
  unfold generate_insights generate_insights_f generate_mock_insights
  obtain ⟨st', saved, hs⟩ :=
    saveInsights_noFaults_ok "Mock_AI_Processor" mockInsightCandidates st []
  simp only [List.isEmpty_nil, if_true]
  unfold generate_mock_insights_f
  rw [hs]

/-- Counterexample for C8: a second insight-generation run over an empty window,
after the mocks are stored, returns the empty list — the claim's "rather than
returning nothing" fails on that run. -/
theorem C8_cex :
    (generate_insights [] [] [] (generate_insights [] [] [] emptyIS).1).2
      = Except.ok [] := by
  decide

/-- Witness for C8: the empty window falls back to the mock generator on the
empty store. -/
theorem C8_witness :
    generate_insights [] [] [] emptyIS = generate_mock_insights emptyIS :=
  C8_thm.1 [] [] emptyIS

/-! ### Lemmas about the MarketDemand store -/

lemma find?_map_update (r : ℕ) (d : ℤ) (vol : ℕ) (avg : ℚ) (tr lv : String) :
    ∀ (store : List MDRec),
      store.any (fun x => decide (x.route = r ∧ x.date = d)) = true →
      ((store.map (fun x =>
          if decide (x.route = r ∧ x.date = d) then
            { x with search_volume := vol, average_price := avg,
                     price_trend := tr, demand_level := lv }
          else x)).find? (fun x => decide (x.route = r ∧ x.date = d)))
        = some ⟨r, d, vol, avg, tr, lv⟩ := by
  intro store
  induction store with
  | nil => intro h; cases h
  | cons x xs ih =>
    intro h
    by_cases hx : x.route = r ∧ x.date = d
    · obtain ⟨h1, h2⟩ := hx
      rcases x with ⟨x1, x2, x3, x4, x5, x6⟩
      simp only [MDRec.route, MDRec.date] at h1 h2
      subst h1; subst h2
      simp [List.find?_cons]
    · have hx' : (decide (x.route = r ∧ x.date = d)) = false := by
        simpa using hx
      simp only [List.map_cons, hx', Bool.false_eq_true, if_false]
      rw [List.find?_cons_of_neg _ (by simp [hx'])]
      apply ih
      simp only [List.any_cons, hx', Bool.false_or] at h
      exact h

lemma find?_map_update_other (r : ℕ) (d : ℤ) (vol : ℕ) (avg : ℚ) (tr lv : String)
    (r' : ℕ) (d' : ℤ) (hne : ¬(r' = r ∧ d' = d)) :
    ∀ (store : List MDRec),
      ((store.map (fun x =>
          if decide (x.route = r ∧ x.date = d) then
            { x with search_volume := vol, average_price := avg,
                     price_trend := tr, demand_level := lv }
          else x)).find? (fun x => decide (x.route = r' ∧ x.date = d')))
        = store.find? (fun x => decide (x.route = r' ∧ x.date = d')) := by
  intro store
  induction store with
  | nil => rfl
  | cons x xs ih =>
    by_cases hq : x.route = r' ∧ x.date = d'
    · have hp : ¬(x.route = r ∧ x.date = d) := by
        rintro ⟨h1, h2⟩
        exact hne ⟨by rw [← hq.1, h1], by rw [← hq.2, h2]⟩
      have hp' : (decide (x.route = r ∧ x.date = d)) = false := by simpa using hp
      simp only [List.map_cons, hp', Bool.false_eq_true, if_false]
      rw [List.find?_cons_of_pos _ (by simpa using hq),
          List.find?_cons_of_pos _ (by simpa using hq)]
    · have hq' : (decide (x.route = r' ∧ x.date = d')) = false := by simpa using hq
      by_cases hp : x.route = r ∧ x.date = d
      · have hp' : (decide (x.route = r ∧ x.date = d)) = true := by simpa using hp
        simp only [List.map_cons, hp', if_true]
        rw [List.find?_cons_of_neg _ (by simp [hq']),
            List.find?_cons_of_neg _ (by simp [hq'])]
        exact ih
      · have hp' : (decide (x.route = r ∧ x.date = d)) = false := by simpa using hp
        simp only [List.map_cons, hp', Bool.false_eq_true, if_false]
        rw [List.find?_cons_of_neg _ (by simp [hq']),
            List.find?_cons_of_neg _ (by simp [hq'])]
        exact ih

lemma lookupMD_upsert_self (store : List MDRec) (r : ℕ) (d : ℤ) (vol : ℕ)
    (avg : ℚ) (tr lv : String) :
    lookupMD (upsert store r d vol avg tr lv).1 r d = some ⟨r, d, vol, avg, tr, lv⟩ := by
  unfold upsert lookupMD
  split_ifs with hany
  · exact find?_map_update r d vol avg tr lv store hany
  · rw [List.find?_append]
    have hnone : store.find? (fun x => decide (x.route = r ∧ x.date = d)) = none := by
      rw [List.find?_eq_none]
      intro x hx hpx
      exact hany (List.any_eq_true.2 ⟨x, hx, hpx⟩)
    rw [hnone]
    simp [List.find?_cons]

lemma lookupMD_upsert_other (store : List MDRec) (r : ℕ) (d : ℤ) (vol : ℕ)
    (avg : ℚ) (tr lv : String) (r' : ℕ) (d' : ℤ) (hne : ¬(r' = r ∧ d' = d)) :
    lookupMD (upsert store r d vol avg tr lv).1 r' d' = lookupMD store r' d' := by
  unfold upsert lookupMD
  split_ifs with hany
  · exact find?_map_update_other r d vol avg tr lv r' d' hne store
  · rw [List.find?_append]
    rw [List.find?_singleton]
    rw [if_neg (by
      simp only [decide_eq_true_eq]
      rintro ⟨h1, h2⟩
      exact hne ⟨h1.symm, h2.symm⟩)]
    exact Option.or_none

/-! ### Lemmas about the aggregation loop -/

lemma pricesOf_eq_some :
    ∀ (g : List Flight), (∀ f ∈ g, f.price.isSome) →
      pricesOf g = some (g.map priceQ) := by
  intro g
  induction g with
  | nil => intro _; rfl
  | cons f fs ih =>
    intro h
    obtain ⟨p, hp⟩ := Option.isSome_iff_exists.1 (h f (List.mem_cons_self f fs))
    have hfs := ih (fun x hx => h x (List.mem_cons_of_mem f hx))
    unfold pricesOf at hfs ⊢
    rw [List.mapM_cons, hp, hfs]
    simp [priceQ, hp]

lemma pricesOf_eq_none_of_mem :
    ∀ (g : List Flight) (f : Flight), f ∈ g → f.price = none →
      pricesOf g = none := by
  intro g
  induction g with
  | nil => intro f hf _; cases hf
  | cons x xs ih =>
    intro f hf hnone
    unfold pricesOf
    rcases List.mem_cons.1 hf with rfl | hf'
    · rw [List.mapM_cons, hnone]; rfl
    · have := ih f hf' hnone
      unfold pricesOf at this
      rw [List.mapM_cons, this]
      rcases x.price with _ | p <;> rfl

lemma runGroups_lookupProj (flights : List Flight)
    (hall : ∀ f ∈ flights, f.price.isSome) :
    ∀ (ks : List (ℕ × ℤ)) (store : List MDRec) (created calls : ℕ) (r : ℕ) (d : ℤ),
      lookupProj (runGroups noFaults flights ks store created calls).1 r d
        = if (r, d) ∈ ks then some (projFor flights (r, d))
          else lookupProj store r d := by
  intro ks
  induction ks with
  | nil =>
    intro store created calls r d
    simp [runGroups]
  | cons k ks ih =>
    intro store created calls r d
    have hg : pricesOf (groupOf keyFD flights k)
        = some ((groupOf keyFD flights k).map priceQ) :=
      pricesOf_eq_some _ (fun f hf => hall f (mem_of_mem_groupOf hf).1)
    simp only [runGroups, hg, noFaults, Bool.false_eq_true, if_false]
    rw [ih]
    by_cases hmem : (r, d) ∈ ks
    · simp [hmem, List.mem_cons]
    · by_cases hk : (r, d) = k
      · subst hk
        simp only [hmem, if_false, List.mem_cons, true_or, if_true]
        unfold lookupProj
        rw [lookupMD_upsert_self]
        rfl
      · have hne : ¬(r = k.1 ∧ d = k.2) := by
          rintro ⟨h1, h2⟩
          exact hk (Prod.ext h1 h2)
        simp only [hmem, if_false, List.mem_cons, hk, false_or]
        unfold lookupProj
        rw [lookupMD_upsert_other _ _ _ _ _ _ _ _ _ hne]

lemma process_store_eq (faults : ℕ → Bool) (flights : List Flight)
    (store : List MDRec) :
    (processFlightDataF faults flights store).2
      = (runGroups faults flights (groupKeys flights) store 0 0).1 := by
  unfold processFlightDataF
  by_cases he : flights.isEmpty
  · have hnil : flights = [] := List.isEmpty_iff.1 he
    subst hnil
    simp [runGroups, groupKeys, keysOf]
  · simp only [he, Bool.false_eq_true, if_false]
    rcases hr : runGroups faults flights (groupKeys flights) store 0 0
      with ⟨store', created, err⟩
    rcases err with _ | e <;> simp [hr]

/-! ### Claim C1 -/

/-- C1 (amended): a second aggregation run over the identical observation batch
leaves, for every (route, date) key, the stored search volume, average price and
demand level unchanged; the stored price trend is not covered (it can change,
because the first run may classify a group before the same-route records of
earlier dates exist — see the counterexample). -/
theorem C1_thm (flights : List Flight) (store : List MDRec)
    (hall : ∀ f ∈ flights, f.price.isSome) (r : ℕ) (d : ℤ) :
    lookupProj (process_flight_data flights
        (process_flight_data flights store).2).2 r d
      = lookupProj (process_flight_data flights store).2 r d := by
  unfold process_flight_data
  simp only [process_store_eq]
  simp only [runGroups_lookupProj flights hall]
  by_cases hmem : (r, d) ∈ groupKeys flights <;> simp [hmem]

/-- Counterexample for C1: on `exTwoDates` (route 0, date 1 encountered before
date 0, prices 200 and 100) the first run over an empty store records trend
`stable` for (0, 1); the second run records `increasing` — the rows are not
identical, so re-running is not idempotent. -/
theorem C1_cex :
    ((lookupMD (process_flight_data exTwoDates []).2 0 1).map
        (fun x => x.price_trend) = some "stable") ∧
    ((lookupMD (process_flight_data exTwoDates
        (process_flight_data exTwoDates []).2).2 0 1).map
        (fun x => x.price_trend) = some "increasing") := by
  decide

/-- Witness for C1: volume, average price and demand level of key (0, 1) are
unchanged by the second run over `exTwoDates`. -/
theorem C1_witness :
    lookupProj (process_flight_data exTwoDates
        (process_flight_data exTwoDates []).2).2 0 1
      = lookupProj (process_flight_data exTwoDates []).2 0 1 :=
  C1_thm exTwoDates [] (by decide) 0 1

/-! ### Claim C9 -/

lemma runGroups_error_none (faults : ℕ → Bool) (flights : List Flight) :
    ∀ (ks : List (ℕ × ℤ)) (store : List MDRec) (created calls : ℕ),
      (runGroups faults flights ks store created calls).2.2 = none →
      ∀ k ∈ ks, pricesOf (groupOf keyFD flights k) ≠ none := by
  intro ks
  induction ks with
  | nil => intro store created calls _ k hk; cases hk
  | cons k ks ih =>
    intro store created calls h k' hk'
    rcases hm : pricesOf (groupOf keyFD flights k) with _ | prices
    · simp [runGroups, hm] at h
    · simp only [runGroups, hm] at h
      by_cases hf : faults calls
      · simp [hf] at h
      · simp only [hf, Bool.false_eq_true, if_false] at h
        rcases List.mem_cons.1 hk' with rfl | hk2
        · rw [hm]; simp
        · exact ih _ _ _ h k' hk2

/-- C9 (amended): a missing price is not skipped; `float(f.price)` raises at
that observation's group, the run returns an error result, and processing stops
there — groups processed earlier stay upserted, later groups are not aggregated
(see the counterexample), and no skip counter exists. -/
theorem C9_thm (flights : List Flight) (store : List MDRec)
    (h : ∃ f ∈ flights, f.price = none) :
    ((process_flight_data flights store).1.error).isSome = true := by
  obtain ⟨f, hf, hnone⟩ := h
  have hne : flights.isEmpty = false := by
    rcases flights with _ | ⟨a, l⟩
    · cases hf
    · rfl
  unfold process_flight_data processFlightDataF
  simp only [hne, Bool.false_eq_true, if_false]
  rcases hr : runGroups noFaults flights (groupKeys flights) store 0 0
    with ⟨store', created, err⟩
  rcases err with _ | e
  · exfalso
    have hclean := runGroups_error_none noFaults flights (groupKeys flights)
      store 0 0 (by rw [hr]) (keyFD f) (mem_keysOf hf)
    exact hclean (pricesOf_eq_none_of_mem _ f (mem_groupOf_self hf) hnone)
  · simp

/-- Counterexample for C9: in `exMalformed` the first observation lacks a price;
the run returns an error result and the second observation's group (route 1,
date 0) is never aggregated — the claim's "skipped ... and the remaining
observations are still aggregated" fails. -/
theorem C9_cex :
    ((process_flight_data exMalformed []).1.error).isSome = true ∧
    lookupMD (process_flight_data exMalformed []).2 1 0 = none := by
  decide

/-- Witness for C9: the malformed batch yields an error result. -/
theorem C9_witness :
    ((process_flight_data exMalformed []).1.error).isSome = true :=
  C9_thm exMalformed [] ⟨⟨0, "SYD", "MEL", "Sydney", "Melbourne", 0, none⟩,
    List.mem_cons_self _ _, rfl⟩

/-! ### Claim C10 -/

lemma runGroups_fault (faults : ℕ → Bool) (flights : List Flight) :
    ∀ (ks : List (ℕ × ℤ)) (store : List MDRec) (created calls : ℕ),
      (∃ j, j < ks.length ∧ faults (calls + j) = true) →
      ((runGroups faults flights ks store created calls).2.2).isSome = true := by
  intro ks
  induction ks with
  | nil =>
    rintro store created calls ⟨j, hj, _⟩
    exact absurd hj (Nat.not_lt_zero j)
  | cons k ks ih =>
    rintro store created calls ⟨j, hj, hfj⟩
    rcases hm : pricesOf (groupOf keyFD flights k) with _ | prices
    · simp [runGroups, hm]
    · simp only [runGroups, hm]
      by_cases hf : faults calls
      · simp [hf]
      · simp only [hf, Bool.false_eq_true, if_false]
        apply ih
        have hj0 : j ≠ 0 := by
          rintro rfl
          rw [Nat.add_zero] at hfj
          exact hf hfj
        refine ⟨j - 1, by simp only [List.length_cons] at hj; omega, ?_⟩
        have harith : calls + 1 + (j - 1) = calls + j := by omega
        rw [harith]
        exact hfj

/-- C10 (amended): the two pipelines handle store failures differently.
Aggregation surfaces them: when the fault schedule fails some upsert within the
batch's group list, `process_flight_data` returns a result whose error field is
set.  Insight generation does not: a store failure at the first save of a
nonempty candidate list is caught and the run falls back to mock-insight
generation on the store state reached, so when the fallback's own store calls
succeed the run returns the mock list as an ordinary success and the failure is
swallowed (see the counterexample); only if the fallback's store calls also fail
does the failure propagate. -/
theorem C10_thm :
    (∀ (faults : ℕ → Bool) (flights : List Flight) (store : List MDRec),
      (∃ j, j < (groupKeys flights).length ∧ faults j = true) →
      ((processFlightDataF faults flights store).1.error).isSome = true) ∧
    (∀ (faults : ℕ → Bool) (recent seasonal : List Flight)
        (gemini : List InsightCandidate) (st : InsightStore),
      recent.isEmpty = false → candsOf recent seasonal gemini ≠ [] →
      faults st.calls = true →
      generate_insights_f faults recent seasonal gemini st
        = generate_mock_insights_f faults ⟨st.recs, st.nextId, st.calls + 1⟩) := by
  constructor
  · rintro faults flights store ⟨j, hj, hfj⟩
    by_cases he : flights.isEmpty
    · exfalso
      have hnil : flights = [] := List.isEmpty_iff.1 he
      subst hnil
      simp only [groupKeys, keysOf, List.foldl_nil, List.length_nil] at hj
      exact absurd hj (Nat.not_lt_zero j)
    · unfold processFlightDataF
      simp only [he, Bool.false_eq_true, if_false]
      have hrun := runGroups_fault faults flights (groupKeys flights) store 0 0
        ⟨j, hj, by simpa using hfj⟩
      rcases hr : runGroups faults flights (groupKeys flights) store 0 0
        with ⟨store', created, err⟩
      rw [hr] at hrun
      rcases err with _ | e
      · cases hrun
      · simp
  · intro faults recent seasonal gemini st hre hcands hfault
    unfold generate_insights_f
    simp only [hre, Bool.false_eq_true, if_false]
    rcases hc : candsOf recent seasonal gemini with _ | ⟨c, cs⟩
    · exact absurd hc hcands
    · simp only [saveInsights_f, get_or_create_f, hfault, if_true]

/-- Counterexample for C10: with a transient store failure (first call fails,
later calls succeed) over a nonempty window producing candidates, insight
generation reports a mock fallback list as a success value instead of the
error. -/
theorem C10_cex :
    faultFirstCall 0 = true ∧
    candsOf exBudget [] [] ≠ [] ∧
    (generate_insights_f faultFirstCall exBudget [] [] emptyIS).2
      = Except.ok mockFreshOutput ∧
    mockFreshOutput ≠ [] := by
  decide

/-- Witness for C10: a store fault at the first upsert of the two-group batch
`exTwoDates` makes aggregation return an error result. -/
theorem C10_witness :
    ((processFlightDataF faultFirstCall exTwoDates []).1.error).isSome = true :=
  C10_thm.1 faultFirstCall exTwoDates [] ⟨0, by decide, by decide⟩

/-! ### Lemmas about candidate titles -/

lemma string_append_right_cancel (a b c : String) (h : a ++ c = b ++ c) : a = b := by
  apply String.ext
  have hd := congrArg String.data h
  rw [String.data_append, String.data_append] at hd
  exact List.append_cancel_right hd

lemma string_append_left_cancel (a b c : String) (h : c ++ a = c ++ b) : a = b := by
  apply String.ext
  have hd := congrArg String.data h
  rw [String.data_append, String.data_append] at hd
  exact List.append_cancel_left hd

lemma highTitle_inj {k k' : String} (h : highTitle k = highTitle k') : k = k' := by
  unfold highTitle at h
  exact string_append_left_cancel _ _ _ (string_append_right_cancel _ _ _ h)

lemma budgetTitle_inj {k k' : String} (h : budgetTitle k = budgetTitle k') : k = k' := by
  unfold budgetTitle at h
  exact string_append_left_cancel _ _ _ h

lemma highTitle_ne_budgetTitle (k k' : String) : highTitle k ≠ budgetTitle k' := by
  intro h
  have hd := congrArg (fun s => s.data.head?) h
  simp only [highTitle, budgetTitle, String.data_append] at hd
  simp at hd

/-- The volatility-analyzer loop body with its local bindings inlined. -/
lemma volatilityCandidate_eq (k : String) (ps : List ℚ) :
    volatilityCandidate k ps =
      if ps.length < 3 then some []
      else if ps.sum / (ps.length : ℚ) = 0 then none
      else if (listMax ps - listMin ps) / (ps.sum / (ps.length : ℚ)) > 1/2 then
        some [highVolCand k (listMin ps) (listMax ps) (ps.sum / (ps.length : ℚ))]
      else if ps.sum / (ps.length : ℚ) < 200 then
        some [budgetCand k (ps.sum / (ps.length : ℚ))]
      else some [] := rfl

lemma volatilityCandidate_titles (k : String) (ps : List ℚ)
    (cs : List InsightCandidate) (hv : volatilityCandidate k ps = some cs) :
    ∀ c ∈ cs, c.title = highTitle k ∨ c.title = budgetTitle k := by
  intro c hc
  rw [volatilityCandidate_eq] at hv
  split_ifs at hv
  · injection hv with h; subst h; cases hc
  · injection hv with h; subst h
    rw [List.mem_singleton] at hc; subst hc; exact Or.inl rfl
  · injection hv with h; subst h
    rw [List.mem_singleton] at hc; subst hc; exact Or.inr rfl
  · injection hv with h; subst h; cases hc

lemma filter_volatilityCandidate_self (k : String) (ps : List ℚ)
    (cs : List InsightCandidate) (hv : volatilityCandidate k ps = some cs) :
    cs.filter (fun c => c.title == highTitle k || c.title == budgetTitle k) = cs := by
  rw [List.filter_eq_self]
  intro c hc
  rcases volatilityCandidate_titles k ps cs hv c hc with h | h <;> simp [h]

lemma filter_volatilityCandidate_other (k k' : String) (ps : List ℚ)
    (cs : List InsightCandidate) (hne : k' ≠ k)
    (hv : volatilityCandidate k' ps = some cs) :
    cs.filter (fun c => c.title == highTitle k || c.title == budgetTitle k) = [] := by
  rw [List.filter_eq_nil_iff]
  intro c hc
  rcases volatilityCandidate_titles k' ps cs hv c hc with h | h <;> rw [h]
  · simp only [Bool.or_eq_true, beq_iff_eq]
    rintro (he | he)
    · exact hne (highTitle_inj he)
    · exact highTitle_ne_budgetTitle k' k he
  · simp only [Bool.or_eq_true, beq_iff_eq]
    rintro (he | he)
    · exact highTitle_ne_budgetTitle k k' he.symm
    · exact hne (budgetTitle_inj he)

lemma flatMap_eq_of_forall_nil {α β : Type} (l : List α) (f : α → List β) (a : α)
    (ha : a ∈ l) (hnd : l.Nodup) (hother : ∀ b ∈ l, b ≠ a → f b = []) :
    l.flatMap f = f a := by
  induction l with
  | nil => cases ha
  | cons x xs ih =>
    rw [List.flatMap_cons]
    rcases List.mem_cons.1 ha with rfl | ha'
    · have hxs : xs.flatMap f = [] := by
        rw [List.flatMap_eq_nil_iff]
        intro b hb
        exact hother b (List.mem_cons_of_mem _ hb)
          (fun e => (List.nodup_cons.1 hnd).1 (e ▸ hb))
      rw [hxs, List.append_nil]
    · have hx : f x = [] := hother x (List.mem_cons_self _ _)
        (fun e => (List.nodup_cons.1 hnd).1 (e ▸ ha'))
      rw [hx, List.nil_append]
      exact ih ha' (List.nodup_cons.1 hnd).2
        (fun b hb hne => hother b (List.mem_cons_of_mem _ hb) hne)

lemma groupsOf_nodup {α κ : Type} [DecidableEq κ] (key : α → κ) (l : List α) :
    (groupsOf key l).Nodup :=
  List.Nodup.map (fun a b h => congrArg Prod.fst h) (keysOf_nodup key l)

lemma volatilityLoop_eq_flatMap :
    ∀ (gs : List (String × List Flight)),
      (∀ p ∈ gs, volatilityCandidate p.1 (p.2.map priceQ) ≠ none) →
      ∀ acc, volatilityLoop gs acc
        = acc ++ gs.flatMap (fun p => (volatilityCandidate p.1 (p.2.map priceQ)).getD []) := by
  intro gs
  induction gs with
  | nil => intro _ acc; simp [volatilityLoop]
  | cons g gs ih =>
    intro h acc
    rcases hv : volatilityCandidate g.1 (g.2.map priceQ) with _ | cs
    · exact absurd hv (h g (List.mem_cons_self _ _))
    · simp only [volatilityLoop, hv]
      rw [ih (fun p hp => h p (List.mem_cons_of_mem _ hp)) (acc ++ cs)]
      rw [List.flatMap_cons, hv]
      simp [List.append_assoc]

lemma routeEmitted_analyze (obs : List Flight) (k : String) (g : List Flight)
    (hall : obs.all (fun f => f.price.isSome) = true)
    (hclean : ∀ p ∈ groupsOf iataKey obs,
      volatilityCandidate p.1 (p.2.map priceQ) ≠ none)
    (hmem : (k, g) ∈ groupsOf iataKey obs) :
    routeEmitted (analyze_price_trends obs) k
      = (volatilityCandidate k (g.map priceQ)).getD [] := by
  obtain ⟨hkmem, hg⟩ := mem_groupsOf hmem
  unfold routeEmitted analyze_price_trends
  rw [if_pos hall, volatilityLoop_eq_flatMap (groupsOf iataKey obs) hclean [],
      List.nil_append, List.filter_flatMap]
  rw [flatMap_eq_of_forall_nil (groupsOf iataKey obs) _ (k, g) hmem
    (groupsOf_nodup iataKey obs) ?_]
  · rcases hv : volatilityCandidate k (g.map priceQ) with _ | cs
    · exact absurd hv (hclean (k, g) hmem)
    · simp only [hv, Option.getD_some]
      exact filter_volatilityCandidate_self k (g.map priceQ) cs hv
  · rintro ⟨k', g'⟩ hb hne
    have hk' : k' ≠ k := by
      rintro rfl
      obtain ⟨_, hg'⟩ := mem_groupsOf hb
      exact hne (by rw [hg', ← hg])
    rcases hv : volatilityCandidate k' (g'.map priceQ) with _ | cs
    · simp [hv]
    · simp only [hv, Option.getD_some]
      exact filter_volatilityCandidate_other k k' (g'.map priceQ) cs hk' hv

/-! ### Claim C6 -/

/-- C6 (amended): the price-volatility analyzer, on windows where no route group
has at least 3 observations with a zero mean price (at such a group the
division `(max - min) / mean` raises `ZeroDivisionError` and the handler returns
only the candidates of groups processed earlier — see the counterexample).  For
a route group `(k, g)` of such a window, at most one candidate about route `k`
is emitted; a group with fewer than 3 observations yields none; otherwise, with
min, max and mean of the group's prices and volatility = (max - min)/mean,
volatility above 0.5 emits exactly the High Price Volatility candidate
(confidence 0.85), else a mean below 200 emits exactly the Budget-Friendly
candidate (confidence 0.9), else none — so the two conditions are mutually
exclusive, and on prices [50,50,50] the analyzer emits the budget candidate
only. -/
theorem C6_thm (obs : List Flight) (k : String) (g : List Flight)
    (hall : obs.all (fun f => f.price.isSome) = true)
    (hclean : ∀ p ∈ groupsOf iataKey obs,
      volatilityCandidate p.1 (p.2.map priceQ) ≠ none)
    (hmem : (k, g) ∈ groupsOf iataKey obs) :
    (routeEmitted (analyze_price_trends obs) k).length ≤ 1 ∧
    (g.length < 3 → routeEmitted (analyze_price_trends obs) k = []) ∧
    (3 ≤ g.length →
      ((listMax (g.map priceQ) - listMin (g.map priceQ)) /
          ((g.map priceQ).sum / ((g.map priceQ).length : ℚ)) > 1/2 →
        routeEmitted (analyze_price_trends obs) k
          = [highVolCand k (listMin (g.map priceQ)) (listMax (g.map priceQ))
              ((g.map priceQ).sum / ((g.map priceQ).length : ℚ))]) ∧
      (¬((listMax (g.map priceQ) - listMin (g.map priceQ)) /
          ((g.map priceQ).sum / ((g.map priceQ).length : ℚ)) > 1/2) →
        ((g.map priceQ).sum / ((g.map priceQ).length : ℚ) < 200 →
          routeEmitted (analyze_price_trends obs) k
            = [budgetCand k ((g.map priceQ).sum / ((g.map priceQ).length : ℚ))]) ∧
        (¬((g.map priceQ).sum / ((g.map priceQ).length : ℚ) < 200) →
          routeEmitted (analyze_price_trends obs) k = []))) ∧
    analyze_price_trends exBudget = [budgetCand "SYD-MEL" 50] := by
  have he := routeEmitted_analyze obs k g hall hclean hmem
  have hlen : (g.map priceQ).length = g.length := List.length_map g priceQ
  have hvne := hclean (k, g) hmem
  refine ⟨?_, ?_, ?_, by decide⟩
  · rw [he, volatilityCandidate_eq]
    split_ifs <;> simp
  · intro h3
    rw [he, volatilityCandidate_eq, if_pos (by rw [hlen]; exact h3)]
    rfl
  · intro h3
    have hn3 : ¬ (g.map priceQ).length < 3 := by rw [hlen]; omega
    have havg : ¬ ((g.map priceQ).sum / (((g.map priceQ)).length : ℚ) = 0) := by
      intro h0
      apply hvne
      rw [volatilityCandidate_eq, if_neg hn3, if_pos h0]
    refine ⟨fun hvol => ?_, fun hvol => ⟨fun hcheap => ?_, fun hcheap => ?_⟩⟩
    · rw [he, volatilityCandidate_eq, if_neg hn3, if_neg havg, if_pos hvol]
      rfl
    · rw [he, volatilityCandidate_eq, if_neg hn3, if_neg havg, if_neg hvol,
        if_pos hcheap]
      rfl
    · rw [he, volatilityCandidate_eq, if_neg hn3, if_neg havg, if_neg hvol,
        if_neg hcheap]
      rfl

/-- Counterexample for C6: on `exZeroAbort` the zero-mean ZQN-WLG group makes
the volatility division raise; the handler returns the candidates accumulated
so far — none — so the later SYD-MEL group, which has 3 observations, zero
volatility and mean 50 (below 200) and should by the claim receive a
Budget-Friendly candidate, gets nothing either. -/
theorem C6_cex :
    analyze_price_trends exZeroAbort = [] ∧
    (groupsOf iataKey exZeroAbort).map Prod.fst = ["ZQN-WLG", "SYD-MEL"] ∧
    ((groupOf iataKey exZeroAbort "SYD-MEL").map priceQ).length = 3 ∧
    ((groupOf iataKey exZeroAbort "SYD-MEL").map priceQ).sum
        / (((groupOf iataKey exZeroAbort "SYD-MEL").map priceQ).length : ℚ) = 50 ∧
    routeEmitted (analyze_price_trends exZeroAbort) "SYD-MEL" = [] := by
  decide

/-- Witness for C6: on `exBudget` (route SYD-MEL, prices [50,50,50]) the
emitted-candidate list for that route is exactly the budget candidate. -/
theorem C6_witness :
    routeEmitted (analyze_price_trends exBudget) "SYD-MEL" = [budgetCand "SYD-MEL" 50] :=
  (((C6_thm exBudget "SYD-MEL" exBudget (by decide) (by decide) (by decide)).2.2.1
    (by decide)).2 (by decide)).1 (by decide)

/-! ### Lemmas about the popularity sort -/

lemma filter_orderedInsert (a : RouteCount) (l : List RouteCount) (c : ℕ) :
    (l.orderedInsert countGE a).filter (fun x => x.count == c)
      = if a.count == c then a :: l.filter (fun x => x.count == c)
        else l.filter (fun x => x.count == c) := by
  induction l with
  | nil => simp [List.orderedInsert, List.filter_cons]
  | cons b l ih =>
    rw [List.orderedInsert]
    by_cases hab : countGE a b
    · rw [if_pos hab]
      simp [List.filter_cons]
    · rw [if_neg hab, List.filter_cons, ih]
      by_cases hpa : (a.count == c) = true
      · have hac : a.count = c := by simpa using hpa
        have hb : (b.count == c) = false := by
          simp only [beq_eq_false_iff_ne]
          intro hbc
          have hlt : a.count < b.count := Nat.lt_of_not_le hab
          omega
        simp [List.filter_cons, hpa, hb]
      · have hpa' : (a.count == c) = false := by
          rw [Bool.eq_false_iff]
          simpa using hpa
        simp [List.filter_cons, hpa']

lemma filter_insertionSort_count (l : List RouteCount) (c : ℕ) :
    (l.insertionSort countGE).filter (fun x => x.count == c)
      = l.filter (fun x => x.count == c) := by
  induction l with
  | nil => rfl
  | cons a l ih =>
    rw [List.insertionSort, filter_orderedInsert, ih, List.filter_cons]

/-! ### Claim C7 -/

/-- C7: the popularity analyzer sorts the per-route counts (taken in encounter
order) into non-increasing count order; the sort is a permutation of the count
table and is stable — for every count value the subsequence of routes with that
count is exactly as encountered; the analyzer emits one candidate per route of
the top 3 of the sort, the candidate at 0-based index i being `popCand i`
(title "Popular Route #(i+1): name", confidence 0.9, description embedding name,
iata and count).  On counts B=9, C=9, A=5 with B encountered first, the output
titles rank B, then C, then A. -/
theorem C7_thm (obs : List Flight) :
    (sortRoutesDesc (routeCounts obs)).Perm (routeCounts obs) ∧
    (sortRoutesDesc (routeCounts obs)).Sorted countGE ∧
    (∀ c : ℕ, (sortRoutesDesc (routeCounts obs)).filter (fun x => x.count == c)
        = (routeCounts obs).filter (fun x => x.count == c)) ∧
    (analyze_popular_routes obs).length = min 3 (routeCounts obs).length ∧
    (∀ i : ℕ, (analyze_popular_routes obs)[i]?
        = (((sortRoutesDesc (routeCounts obs)).take 3)[i]?).map (popCand i)) ∧
    (analyze_popular_routes exPopularity).map (fun c => c.title)
      = ["Popular Route #1: B to X", "Popular Route #2: C to X",
         "Popular Route #3: A to X"] := by
  refine ⟨List.perm_insertionSort countGE (routeCounts obs),
    List.sorted_insertionSort countGE (routeCounts obs),
    fun c => filter_insertionSort_count (routeCounts obs) c,
    ?_, ?_, by decide⟩
  · unfold analyze_popular_routes sortRoutesDesc
    rw [List.length_map, List.enum_length, List.length_take,
        List.length_insertionSort]
  · intro i
    rcases h : ((sortRoutesDesc (routeCounts obs)).take 3)[i]? with _ | rc <;>
      simp [analyze_popular_routes, List.getElem?_map, List.getElem?_enum, h]

/-- Witness for C7: on `exPopularity` the two count-9 routes keep their
encounter order through the sort. -/
theorem C7_witness :
    (sortRoutesDesc (routeCounts exPopularity)).filter (fun x => x.count == 9)
      = (routeCounts exPopularity).filter (fun x => x.count == 9) :=
  (C7_thm exPopularity).2.2.1 9

end Analyzer
